import Mathlib

/-!
A verification development for the `postgres-mcp-server` tool-dispatch
gateway (src/index.js).  The JavaScript source is shallowly embedded:
strings are Lean `String`s, JavaScript's loose optional values (`undefined`
vs `null` vs a string) are the `JsVal` type, numbers that matter here are
`Int`s, the database driver is an explicit oracle (`Db`) and every pool
interaction is recorded in an event trace, so that acquire/release
accounting and the executed SQL text are observable in theorems.
-/

namespace PgMcp

/-- A JavaScript optional string value: `undefined` (absent field),
`null`, or an actual string.  Needed because `src/index.js` distinguishes
`pattern !== null` (line 360) from truthiness `if (pattern)` (line 334). -/
inductive JsVal where
  | undef
  | null
  | str (s : String)
  deriving DecidableEq, Repr

/-- JavaScript truthiness of a `JsVal`: only a non-empty string is truthy. -/
def JsVal.truthy : JsVal → Bool
  | .str s => !(s == "")
  | _ => false

/-- JavaScript `v || d` for string-valued `v` with string default `d`. -/
def JsVal.orElse (v : JsVal) (d : String) : String :=
  match v with
  | .str s => if s == "" then d else s
  | _ => d

/-- The string carried by a `JsVal`, with `""` for `undefined`/`null`
(only ever read under a truthiness guard). -/
def JsVal.strD : JsVal → String
  | .str s => s
  | _ => ""

/-- JavaScript `v || d` for an optional number `v` (absent or `0` falls
back to `d`), as in `maxRows || this.defaultConfig.maxRows` (line 139)
and `result.rowCount || 0` (line 170). -/
def jsOrNum (v : Option Int) (d : Int) : Int :=
  match v with
  | some n => if n == 0 then d else n
  | none => d

/-- JavaScript truthiness of an optional number: present and non-zero. -/
def numTruthy : Option Int → Bool
  | some n => !(n == 0)
  | none => false

/-- ASCII uppercase of a string, embedding `String.prototype.toUpperCase`
on the ASCII fragment the handlers inspect. -/
def jsToUpper (s : String) : String :=
  ⟨s.data.map Char.toUpper⟩

/-- JavaScript whitespace (ASCII fragment), for `String.prototype.trim`. -/
def jsIsWhitespace (c : Char) : Bool :=
  c == ' ' || c == '\t' || c == '\n' || c == '\r' || c == '\x0b' || c == '\x0c'

/-- Embedding of `String.prototype.trim`: strip whitespace from both ends. -/
def jsTrim (s : String) : String :=
  ⟨((s.data.dropWhile jsIsWhitespace).reverse.dropWhile jsIsWhitespace).reverse⟩

/-- Substring occurrence on character lists (the core of
`String.prototype.includes`). -/
def containsSub (hay needle : List Char) : Bool :=
  match hay with
  | [] => needle.isEmpty
  | _ :: t => needle.isPrefixOf hay || containsSub t needle

/-- Embedding of `String.prototype.includes`. -/
def jsIncludes (s sub : String) : Bool :=
  containsSub s.data sub.data

/-- Embedding of `String.prototype.startsWith`. -/
def jsStartsWith (s p : String) : Bool :=
  p.data.isPrefixOf s.data

/-- Process-wide default configuration (lines 25-30); the stock values
are `schema = "public"`, `context = ""`, `maxRows = 100`. -/
structure Config where
  schema : String := "public"
  context : String := ""
  maxRows : Int := 100
  deriving Repr

/-- The stock configuration with no environment overrides. -/
def defaultConfig : Config := {}

/-- The guard of lines 153-157: the query is augmented iff its trimmed
uppercase form starts with `"SELECT"`, its uppercase form does not
contain `"LIMIT"`, and the effective limit is positive. -/
def augmentCondition (query : String) (limitRows : Int) : Bool :=
  jsStartsWith (jsToUpper (jsTrim query)) "SELECT"
    && !(jsIncludes (jsToUpper query) "LIMIT")
    && decide (0 < limitRows)

/-- The ` LIMIT {limitRows}` suffix of line 158. -/
def limitSuffix (limitRows : Int) : String :=
  " LIMIT " ++ toString limitRows

/-- Lines 152-159: the final query text passed to the driver. -/
def augment (query : String) (limitRows : Int) : String :=
  if augmentCondition query limitRows then query ++ limitSuffix limitRows
  else query

/-- A driver-reported error with the four fields the handlers copy into
failure envelopes (`message`, `code`, `detail`, `hint`); all but the
message may be absent on a JavaScript error object. -/
structure DbError where
  message : String
  code : JsVal
  detail : JsVal
  hint : JsVal
  deriving DecidableEq, Repr

/-- A field descriptor of a driver result (lines 172-177). -/
structure FieldDesc where
  name : String
  dataTypeID : Int
  dataTypeSize : Int
  dataTypeModifier : Int
  deriving DecidableEq, Repr

/-- A generic result row: a mapping from column names to values. -/
abbrev Row := List (String × String)

/-- A driver result for the free-form query tool.  `rowCount` may be
`null` (the code guards it with `|| 0`); `rows` is always an array in
the driver, so it is a plain list here. -/
structure ExecResult where
  command : String
  rowCount : Option Int
  fields : Option (List FieldDesc)
  rows : List Row
  deriving DecidableEq, Repr

/-- A row of `information_schema.columns` as selected by the
describe-table introspection statement (lines 229-241). -/
structure InfoColumnRow where
  column_name : String
  data_type : String
  is_nullable : String
  column_default : JsVal
  character_maximum_length : Option Int
  numeric_precision : Option Int
  numeric_scale : Option Int
  deriving DecidableEq, Repr

/-- A row of `information_schema.tables` as selected by the list-tables
statement (lines 327-331). -/
structure InfoTableRow where
  table_name : String
  table_type : String
  deriving DecidableEq, Repr

/-- The database driver as an oracle: the outcome of `pool.connect()`
and of `client.query(...)` for each statement shape.  The handlers pass
the SQL text and bound parameters to it, so theorems can observe exactly
what is executed. -/
structure Db where
  connect : Except DbError Unit
  execQuery : String → Except DbError ExecResult
  execDescribe : String → List String → Except DbError (List InfoColumnRow)
  execList : String → List String → Except DbError (List InfoTableRow)

/-- An observable interaction with the pool or the connection. -/
inductive Event where
  | acquire
  | release
  | exec (sql : String) (params : List String)
  deriving DecidableEq, Repr

/-- The `(sql, params)` pairs of the statements executed in a trace. -/
def execEvents : List Event → List (String × List String)
  | [] => []
  | .exec s p :: t => (s, p) :: execEvents t
  | _ :: t => execEvents t

/-- Arguments of the `query` tool (line 137): required query text,
optional schema, context and maxRows. -/
structure QueryArgs where
  query : String
  schema : JsVal := .undef
  context : JsVal := .undef
  maxRows : Option Int := none
  deriving DecidableEq, Repr

/-- Line 138: `schema || this.defaultConfig.schema`. -/
def effSchemaQ (cfg : Config) (args : QueryArgs) : String :=
  args.schema.orElse cfg.schema

/-- Line 139: `maxRows || this.defaultConfig.maxRows`. -/
def effLimit (cfg : Config) (args : QueryArgs) : Int :=
  jsOrNum args.maxRows cfg.maxRows

/-- Lines 148, 167: `context || this.defaultConfig.context`. -/
def effContext (cfg : Config) (args : QueryArgs) : String :=
  args.context.orElse cfg.context

/-- Lines 146-149: the context banner; computed by the handler but never
attached to the executed statement (it is dead code in the source). -/
def contextInfo (cfg : Config) (args : QueryArgs) : String :=
  if !(effContext cfg args == "") then
    "\nContext: " ++ effContext cfg args ++ "\n"
  else ""

/-- The success payload of the `query` tool (lines 163-187), with the
metadata block inlined. -/
structure QuerySuccess where
  query : String
  schema : String
  context : String
  command : String
  rowCount : Int
  fields : Option (List FieldDesc)
  data : List Row
  hasData : Bool
  dataCount : Nat
  wasLimited : Bool
  limitApplied : Int
  deriving DecidableEq, Repr

/-- The failure payload of the `query` tool (lines 201-212). -/
structure QueryFailure where
  error : DbError
  query : String
  schema : String
  context : String
  deriving DecidableEq, Repr

/-- The envelope returned by the `query` tool, discriminated by the
`success` flag. -/
inductive QueryResponse where
  | success (s : QuerySuccess)
  | failure (f : QueryFailure)
  deriving DecidableEq, Repr

/-- Lines 136-223: the `query` tool handler, returning its pool/statement
event trace alongside the envelope. -/
def handleQuery (cfg : Config) (db : Db) (args : QueryArgs) :
    List Event × QueryResponse :=
  let targetSchema := effSchemaQ cfg args
  let limitRows := effLimit cfg args
  match db.connect with
  | .error e =>
      ([], .failure { error := e, query := args.query, schema := targetSchema,
                      context := effContext cfg args })
  | .ok _ =>
      let finalQuery := augment args.query limitRows
      match db.execQuery finalQuery with
      | .error e =>
          ([.acquire, .exec finalQuery [], .release],
           .failure { error := e, query := args.query, schema := targetSchema,
                      context := effContext cfg args })
      | .ok result =>
          ([.acquire, .exec finalQuery [], .release],
           .success {
             query := finalQuery
             schema := targetSchema
             context := effContext cfg args
             command := result.command
             rowCount := jsOrNum result.rowCount 0
             fields := result.fields
             data := result.rows
             hasData := !result.rows.isEmpty
             dataCount := result.rows.length
             wasLimited := !(args.query == finalQuery)
             limitApplied := limitRows })

/-- Arguments of the `describe_table` tool (line 226). -/
structure DescribeArgs where
  tableName : String
  schema : JsVal := .undef
  deriving DecidableEq, Repr

/-- The fixed introspection statement of lines 229-241; one constant
string, with the schema and table name as placeholders `$1`/`$2`. -/
def describeTableQuery : String :=
  "\n      SELECT \n        column_name,\n        data_type,\n        is_nullable,\n        column_default,\n        character_maximum_length,\n        numeric_precision,\n        numeric_scale\n      FROM information_schema.columns \n      WHERE table_schema = $1 AND table_name = $2\n      ORDER BY ordinal_position;\n    "

/-- Lines 268-277: the derived human-readable full-type string.  All the
tests are JavaScript truthiness, so a `0` precision or scale behaves like
an absent one. -/
def fullTypeOf (row : InfoColumnRow) : String :=
  row.data_type
    ++ (if numTruthy row.character_maximum_length then
          "(" ++ toString (row.character_maximum_length.getD 0) ++ ")"
        else "")
    ++ (if numTruthy row.numeric_precision then
          "(" ++ toString (row.numeric_precision.getD 0)
            ++ (if numTruthy row.numeric_scale then
                  "," ++ toString (row.numeric_scale.getD 0)
                else "")
            ++ ")"
        else "")

/-- One element of the `columns` array (lines 256-279), with the nested
`constraints`/`typeInfo` blocks inlined. -/
structure ColumnDescriptor where
  position : Nat
  name : String
  dataType : String
  nullable : Bool
  defaultValue : JsVal
  characterMaximumLength : Option Int
  numericPrecision : Option Int
  numericScale : Option Int
  fullType : String
  deriving DecidableEq, Repr

/-- The per-row mapping of lines 256-279 at a given 0-based index. -/
def columnDescriptorOf (index : Nat) (row : InfoColumnRow) : ColumnDescriptor :=
  { position := index + 1
    name := row.column_name
    dataType := row.data_type
    nullable := row.is_nullable == "YES"
    defaultValue := row.column_default
    characterMaximumLength := row.character_maximum_length
    numericPrecision := row.numeric_precision
    numericScale := row.numeric_scale
    fullType := fullTypeOf row }

/-- JavaScript's `Array.prototype.map` with the element index. -/
def mapWithIndex (f : Nat → α → β) : Nat → List α → List β
  | _, [] => []
  | i, a :: rest => f i a :: mapWithIndex f (i + 1) rest

/-- The `table` identity block of lines 251-255. -/
structure TableIdent where
  name : String
  schema : String
  fullName : String
  deriving DecidableEq, Repr

/-- The success payload of `describe_table` (lines 249-284), metadata
inlined. -/
structure DescribeSuccess where
  table : TableIdent
  columns : List ColumnDescriptor
  columnCount : Nat
  found : Bool
  deriving DecidableEq, Repr

/-- The failure payload of `describe_table` (lines 298-310). -/
structure DescribeFailure where
  error : DbError
  tableName : String
  schema : String
  deriving DecidableEq, Repr

/-- The envelope returned by `describe_table`. -/
inductive DescribeResponse where
  | success (s : DescribeSuccess)
  | failure (f : DescribeFailure)
  deriving DecidableEq, Repr

/-- Lines 225-321: the `describe_table` tool handler. -/
def handleDescribeTable (cfg : Config) (db : Db) (args : DescribeArgs) :
    List Event × DescribeResponse :=
  let targetSchema := args.schema.orElse cfg.schema
  match db.connect with
  | .error e =>
      ([], .failure { error := e, tableName := args.tableName, schema := targetSchema })
  | .ok _ =>
      match db.execDescribe describeTableQuery [targetSchema, args.tableName] with
      | .error e =>
          ([.acquire, .exec describeTableQuery [targetSchema, args.tableName], .release],
           .failure { error := e, tableName := args.tableName, schema := targetSchema })
      | .ok rows =>
          ([.acquire, .exec describeTableQuery [targetSchema, args.tableName], .release],
           .success {
             table := { name := args.tableName, schema := targetSchema,
                        fullName := targetSchema ++ "." ++ args.tableName }
             columns := mapWithIndex columnDescriptorOf 0 rows
             columnCount := rows.length
             found := !rows.isEmpty })

/-- Arguments of the `list_tables` tool (line 324). -/
structure ListArgs where
  schema : JsVal := .undef
  pattern : JsVal := .undef
  deriving DecidableEq, Repr

/-- The base list-tables statement of lines 327-331, before the optional
pattern clause and the `ORDER BY`. -/
def listTablesBaseQuery : String :=
  "\n      SELECT table_name, table_type\n      FROM information_schema.tables \n      WHERE table_schema = $1\n    "

/-- One element of the `tables` array (lines 351-356). -/
structure TableDescriptor where
  position : Nat
  name : String
  type : String
  fullName : String
  deriving DecidableEq, Repr

/-- The success payload of `list_tables` (lines 347-362), metadata
inlined; `pattern` carries `pattern || null`. -/
structure ListSuccess where
  schema : String
  pattern : JsVal
  tables : List TableDescriptor
  tableCount : Nat
  found : Bool
  filtered : Bool
  deriving DecidableEq, Repr

/-- The failure payload of `list_tables` (lines 376-386). -/
structure ListFailure where
  error : DbError
  schema : String
  pattern : JsVal
  deriving DecidableEq, Repr

/-- The envelope returned by `list_tables`. -/
inductive ListResponse where
  | success (s : ListSuccess)
  | failure (f : ListFailure)
  deriving DecidableEq, Repr

/-- The SQL text built by lines 327-339 for a given pattern truthiness. -/
def listTablesSql (withPattern : Bool) : String :=
  (if withPattern then listTablesBaseQuery ++ " AND table_name LIKE $2"
   else listTablesBaseQuery) ++ " ORDER BY table_name"

/-- The bound parameter list built by lines 332-337. -/
def listParams (cfg : Config) (args : ListArgs) : List String :=
  if args.pattern.truthy then
    [args.schema.orElse cfg.schema, args.pattern.strD]
  else [args.schema.orElse cfg.schema]

/-- Lines 323-397: the `list_tables` tool handler.  Note line 360:
`filtered` is `pattern !== null`, and line 350: the echoed pattern is
`pattern || null`. -/
def handleListTables (cfg : Config) (db : Db) (args : ListArgs) :
    List Event × ListResponse :=
  let targetSchema := args.schema.orElse cfg.schema
  let query := listTablesSql args.pattern.truthy
  let params := listParams cfg args
  let patternOrNull := if args.pattern.truthy then args.pattern else JsVal.null
  match db.connect with
  | .error e =>
      ([], .failure { error := e, schema := targetSchema, pattern := patternOrNull })
  | .ok _ =>
      match db.execList query params with
      | .error e =>
          ([.acquire, .exec query params, .release],
           .failure { error := e, schema := targetSchema, pattern := patternOrNull })
      | .ok rows =>
          ([.acquire, .exec query params, .release],
           .success {
             schema := targetSchema
             pattern := patternOrNull
             tables := mapWithIndex
               (fun i row => { position := i + 1, name := row.table_name,
                               type := row.table_type,
                               fullName := targetSchema ++ "." ++ row.table_name })
               0 rows
             tableCount := rows.length
             found := !rows.isEmpty
             filtered := !(args.pattern == JsVal.null) })

/-- An incoming tool call: one of the three known tools with well-typed
arguments, or an unknown tool name (the `default` arm of lines 123-132). -/
inductive ToolRequest where
  | queryTool (args : QueryArgs)
  | describeTable (args : DescribeArgs)
  | listTables (args : ListArgs)
  | unknownTool (nm : String)

/-- The wire name a request arrives under. -/
def ToolRequest.name : ToolRequest → String
  | .queryTool _ => "query"
  | .describeTable _ => "describe_table"
  | .listTables _ => "list_tables"
  | .unknownTool nm => nm

/-- A handler envelope, wrapped into one common response type. -/
inductive Response where
  | query (r : QueryResponse)
  | describe (r : DescribeResponse)
  | list (r : ListResponse)
  deriving DecidableEq, Repr

/-- The `success` flag of a response envelope. -/
def Response.success : Response → Bool
  | .query (.success _) => true
  | .describe (.success _) => true
  | .list (.success _) => true
  | _ => false

/-- The `error` block of a response envelope, when it is a failure. -/
def Response.errorInfo : Response → Option DbError
  | .query (.failure f) => some f.error
  | .describe (.failure f) => some f.error
  | .list (.failure f) => some f.error
  | _ => none

/-- The one error that crosses the handler boundary: the `throw new
Error(...)` of line 131. -/
inductive DispatchError where
  | unknownTool (nm : String)
  deriving DecidableEq, Repr

/-- Lines 120-133: the tool dispatcher; known names run their handler
(whose envelope is always returned normally), an unknown name throws. -/
def dispatch (cfg : Config) (db : Db) :
    ToolRequest → Except DispatchError (List Event × Response)
  | .queryTool a =>
      let r := handleQuery cfg db a
      .ok (r.1, .query r.2)
  | .describeTable a =>
      let r := handleDescribeTable cfg db a
      .ok (r.1, .describe r.2)
  | .listTables a =>
      let r := handleListTables cfg db a
      .ok (r.1, .list r.2)
  | .unknownTool nm => .error (.unknownTool nm)

/-- A sample driver result used to instantiate theorems. -/
def okResult : ExecResult :=
  { command := "SELECT", rowCount := some 1, fields := none, rows := [[("a", "1")]] }

/-- A sample driver error used to instantiate theorems. -/
def sampleError : DbError :=
  { message := "syntax error", code := .str "42601", detail := .undef, hint := .undef }

/-- An oracle on which every driver operation succeeds. -/
def dbOk : Db :=
  { connect := .ok ()
    execQuery := fun _ => .ok okResult
    execDescribe := fun _ _ => .ok []
    execList := fun _ _ => .ok [] }

/-- An oracle on which connection acquisition fails. -/
def dbConnectFail : Db :=
  { connect := .error sampleError
    execQuery := fun _ => .ok okResult
    execDescribe := fun _ _ => .ok []
    execList := fun _ _ => .ok [] }

/-- An oracle on which statement execution throws mid-call. -/
def dbExecFail : Db :=
  { connect := .ok ()
    execQuery := fun _ => .error sampleError
    execDescribe := fun _ _ => .error sampleError
    execList := fun _ _ => .error sampleError }

/-! ### Helper lemmas -/

theorem limitSuffix_data_length (L : Int) :
    7 ≤ (limitSuffix L).data.length := by
  have happ : (limitSuffix L).data = " LIMIT ".data ++ (toString L).data := by
    show (" LIMIT " ++ toString L).data = _
    cases toString L
    rfl
  have h7 : " LIMIT ".data.length = 7 := rfl
  rw [happ, List.length_append, h7]
  omega

theorem append_limitSuffix_ne (q : String) (L : Int) :
    q ++ limitSuffix L ≠ q := by
  intro h
  have hd : (q ++ limitSuffix L).data = q.data := congrArg String.data h
  have happ : (q ++ limitSuffix L).data = q.data ++ (limitSuffix L).data := by
    cases q
    cases limitSuffix L
    rfl
  rw [happ] at hd
  have hl := congrArg List.length hd
  rw [List.length_append] at hl
  have h7 := limitSuffix_data_length L
  omega

theorem augmentCondition_iff (q : String) (L : Int) :
    augmentCondition q L = true ↔
      (jsStartsWith (jsToUpper (jsTrim q)) "SELECT" = true ∧
       jsIncludes (jsToUpper q) "LIMIT" = false ∧ 0 < L) := by
  simp [augmentCondition, Bool.and_eq_true, Bool.not_eq_true', decide_eq_true_iff,
    and_assoc]

theorem augment_of_cond_true (q : String) (L : Int)
    (h : augmentCondition q L = true) :
    augment q L = q ++ limitSuffix L := by
  simp [augment, h]

theorem augment_of_cond_false (q : String) (L : Int)
    (h : augmentCondition q L = false) :
    augment q L = q := by
  simp [augment, h]

theorem augment_ne_iff (q : String) (L : Int) :
    augment q L ≠ q ↔ augmentCondition q L = true := by
  constructor
  · intro h
    cases hc : augmentCondition q L with
    | false => exact absurd (augment_of_cond_false q L hc) h
    | true => rfl
  · intro h
    rw [augment_of_cond_true q L h]
    exact append_limitSuffix_ne q L

theorem handleQuery_trace_eq (cfg : Config) (db : Db) (qa : QueryArgs) :
    (handleQuery cfg db qa).1 =
      match db.connect with
      | .error _ => []
      | .ok _ =>
        [Event.acquire, Event.exec (augment qa.query (effLimit cfg qa)) [],
         Event.release] := by
  cases hc : db.connect with
  | error e => simp [handleQuery, hc]
  | ok u =>
    cases he : db.execQuery (augment qa.query (effLimit cfg qa)) <;>
      simp [handleQuery, hc, he]

theorem handleDescribeTable_trace_eq (cfg : Config) (db : Db) (da : DescribeArgs) :
    (handleDescribeTable cfg db da).1 =
      match db.connect with
      | .error _ => []
      | .ok _ =>
        [Event.acquire,
         Event.exec describeTableQuery [da.schema.orElse cfg.schema, da.tableName],
         Event.release] := by
  cases hc : db.connect with
  | error e => simp [handleDescribeTable, hc]
  | ok u =>
    cases he : db.execDescribe describeTableQuery
        [da.schema.orElse cfg.schema, da.tableName] <;>
      simp [handleDescribeTable, hc, he]

theorem handleListTables_trace_eq (cfg : Config) (db : Db) (la : ListArgs) :
    (handleListTables cfg db la).1 =
      match db.connect with
      | .error _ => []
      | .ok _ =>
        [Event.acquire,
         Event.exec (listTablesSql la.pattern.truthy) (listParams cfg la),
         Event.release] := by
  cases hc : db.connect with
  | error e => simp [handleListTables, hc]
  | ok u =>
    cases he : db.execList (listTablesSql la.pattern.truthy) (listParams cfg la) with
    | error e => simp [handleListTables, hc, he]
    | ok rows => simp [handleListTables, hc, he]

/-! ### Claims -/

/-- C1: for every query request with a positive effective row limit, the
executed text differs from the raw text (i.e. a suffix is appended) iff the
trimmed uppercased query starts with `"SELECT"` and the uppercased query does
not contain `"LIMIT"`; when appended, the executed text is the original text
with ` LIMIT {L}` appended, and the success envelope's `wasLimited` flag is
true exactly when the text was changed. -/
theorem query_limit_augmentation (cfg : Config) (db : Db) (args : QueryArgs)
    (hL : 0 < effLimit cfg args) :
    (augment args.query (effLimit cfg args) ≠ args.query ↔
      (jsStartsWith (jsToUpper (jsTrim args.query)) "SELECT" = true ∧
       jsIncludes (jsToUpper args.query) "LIMIT" = false)) ∧
    (augment args.query (effLimit cfg args) ≠ args.query →
      augment args.query (effLimit cfg args) =
        args.query ++ limitSuffix (effLimit cfg args)) ∧
    (∀ s, (handleQuery cfg db args).2 = .success s →
      (s.wasLimited = true ↔ augment args.query (effLimit cfg args) ≠ args.query)) := by
  refine ⟨?_, ?_, ?_⟩
  · rw [augment_ne_iff, augmentCondition_iff]
    exact ⟨fun ⟨h1, h2, _⟩ => ⟨h1, h2⟩, fun ⟨h1, h2⟩ => ⟨h1, h2, hL⟩⟩
  · intro h
    exact augment_of_cond_true _ _ ((augment_ne_iff _ _).1 h)
  · intro s hs
    cases hc : db.connect with
    | error e => simp [handleQuery, hc] at hs
    | ok u =>
      cases he : db.execQuery (augment args.query (effLimit cfg args)) with
      | error e => simp [handleQuery, hc, he] at hs
      | ok result =>
        simp [handleQuery, hc, he, QueryResponse.success.injEq] at hs
        rw [← hs]
        show (!(args.query == augment args.query (effLimit cfg args))) = true ↔
          augment args.query (effLimit cfg args) ≠ args.query
        rw [Bool.not_eq_true', beq_eq_false_iff_ne]
        exact ne_comm

/-- C1 witness at a concrete instance: `"SELECT 1"` with the stock default
limit 100. -/
theorem query_limit_augmentation_witness :
    augment "SELECT 1" (effLimit defaultConfig { query := "SELECT 1" }) ≠ "SELECT 1" ↔
      (jsStartsWith (jsToUpper (jsTrim "SELECT 1")) "SELECT" = true ∧
       jsIncludes (jsToUpper "SELECT 1") "LIMIT" = false) :=
  (query_limit_augmentation defaultConfig dbOk { query := "SELECT 1" } (by decide)).1

/-- C2 counterexample: a request that explicitly supplies `maxRows = 0` does
not get effective limit 0 — `maxRows || default` (line 139) treats `0` as
absent, the limit resolves to the default 100, and the SELECT text IS
augmented with ` LIMIT 100`. -/
theorem maxRows_zero_fallback_counterexample :
    effLimit defaultConfig { query := "SELECT * FROM t", maxRows := some 0 } = 100 ∧
    augment "SELECT * FROM t"
        (effLimit defaultConfig { query := "SELECT * FROM t", maxRows := some 0 }) =
      "SELECT * FROM t LIMIT 100" :=
  ⟨rfl, rfl⟩

/-- C2 amended: the effective row limit equals the request's `maxRows` when it
is present and non-zero, and the configured default when it is absent or zero
(JavaScript falsiness); the LIMIT suffix is only appended when the effective
limit is positive. -/
theorem effective_limit_resolution (cfg : Config) (args : QueryArgs) :
    (∀ v : Int, args.maxRows = some v → v ≠ 0 → effLimit cfg args = v) ∧
    (args.maxRows = none → effLimit cfg args = cfg.maxRows) ∧
    (args.maxRows = some 0 → effLimit cfg args = cfg.maxRows) ∧
    (effLimit cfg args ≤ 0 → augment args.query (effLimit cfg args) = args.query) := by
  refine ⟨?_, ?_, ?_, ?_⟩
  · intro v hv hnz
    simp [effLimit, jsOrNum, hv, hnz]
  · intro h
    simp [effLimit, jsOrNum, h]
  · intro h
    simp [effLimit, jsOrNum, h]
  · intro h
    apply augment_of_cond_false
    cases hcond : augmentCondition args.query (effLimit cfg args) with
    | false => rfl
    | true =>
      have h3 := ((augmentCondition_iff _ _).1 hcond).2.2
      omega

/-- C2 amended witness: `maxRows = 0` resolves to the stock default 100. -/
theorem effective_limit_resolution_witness :
    effLimit defaultConfig { query := "SELECT 1", maxRows := some 0 } =
      defaultConfig.maxRows :=
  (effective_limit_resolution defaultConfig
    { query := "SELECT 1", maxRows := some 0 }).2.2.1 rfl

/-- C3: for each of the three handlers, the trace contains as many releases
as acquires, never more than one acquire, and exactly one acquire (hence one
release) whenever connection acquisition succeeds — in particular also when
statement execution throws mid-call. -/
theorem connection_release_balance (cfg : Config) (db : Db)
    (qa : QueryArgs) (da : DescribeArgs) (la : ListArgs) :
    ((handleQuery cfg db qa).1.count Event.release =
        (handleQuery cfg db qa).1.count Event.acquire ∧
      (handleQuery cfg db qa).1.count Event.acquire ≤ 1 ∧
      (db.connect = .ok () → (handleQuery cfg db qa).1.count Event.acquire = 1)) ∧
    ((handleDescribeTable cfg db da).1.count Event.release =
        (handleDescribeTable cfg db da).1.count Event.acquire ∧
      (handleDescribeTable cfg db da).1.count Event.acquire ≤ 1 ∧
      (db.connect = .ok () →
        (handleDescribeTable cfg db da).1.count Event.acquire = 1)) ∧
    ((handleListTables cfg db la).1.count Event.release =
        (handleListTables cfg db la).1.count Event.acquire ∧
      (handleListTables cfg db la).1.count Event.acquire ≤ 1 ∧
      (db.connect = .ok () → (handleListTables cfg db la).1.count Event.acquire = 1)) := by
  have hq := handleQuery_trace_eq cfg db qa
  have hd := handleDescribeTable_trace_eq cfg db da
  have hl := handleListTables_trace_eq cfg db la
  cases hc : db.connect with
  | error e =>
    rw [hc] at hq hd hl
    refine ⟨⟨?_, ?_, fun h => Except.noConfusion h⟩,
            ⟨?_, ?_, fun h => Except.noConfusion h⟩,
            ⟨?_, ?_, fun h => Except.noConfusion h⟩⟩ <;>
      simp only [hq, hd, hl] <;> first | rfl | exact Nat.le_of_sub_eq_zero rfl
  | ok u =>
    rw [hc] at hq hd hl
    refine ⟨⟨?_, ?_, fun _ => ?_⟩, ⟨?_, ?_, fun _ => ?_⟩, ⟨?_, ?_, fun _ => ?_⟩⟩ <;>
      simp only [hq, hd, hl] <;> rfl

/-- C3 witness: on an oracle whose statement execution throws mid-call, the
query handler still acquires and releases exactly once. -/
theorem connection_release_balance_witness :
    (handleQuery defaultConfig dbExecFail { query := "SELECT 1" }).1.count
        Event.acquire = 1 ∧
    (handleListTables defaultConfig dbOk {}).1.count Event.acquire = 1 :=
  ⟨(connection_release_balance defaultConfig dbExecFail { query := "SELECT 1" }
      { tableName := "t" } {}).1.2.2 rfl,
   (connection_release_balance defaultConfig dbOk { query := "SELECT 1" }
      { tableName := "t" } {}).2.2.2.2 rfl⟩

/-- C4: only the UnknownTool error crosses the dispatcher boundary: an
unknown tool name makes `dispatch` throw, while each of the three known
tools always returns an envelope; every connection-acquisition or
statement-execution error inside a handler is absorbed into a failure
envelope carrying exactly the error's message/code/detail/hint fields. -/
theorem error_propagation_policy (cfg : Config) (db : Db) :
    (∀ nm, dispatch cfg db (.unknownTool nm) =
      Except.error (DispatchError.unknownTool nm)) ∧
    (∀ a, ∃ out, dispatch cfg db (.queryTool a) = Except.ok out) ∧
    (∀ a, ∃ out, dispatch cfg db (.describeTable a) = Except.ok out) ∧
    (∀ a, ∃ out, dispatch cfg db (.listTables a) = Except.ok out) ∧
    (∀ a e, db.connect = .error e →
      (handleQuery cfg db a).2 =
        .failure { error := e, query := a.query, schema := effSchemaQ cfg a,
                   context := effContext cfg a }) ∧
    (∀ a e, db.connect = .ok () →
      db.execQuery (augment a.query (effLimit cfg a)) = .error e →
      (handleQuery cfg db a).2 =
        .failure { error := e, query := a.query, schema := effSchemaQ cfg a,
                   context := effContext cfg a }) ∧
    (∀ a e, db.connect = .error e →
      (handleDescribeTable cfg db a).2 =
        .failure { error := e, tableName := a.tableName,
                   schema := a.schema.orElse cfg.schema }) ∧
    (∀ a e, db.connect = .ok () →
      db.execDescribe describeTableQuery [a.schema.orElse cfg.schema, a.tableName] =
        .error e →
      (handleDescribeTable cfg db a).2 =
        .failure { error := e, tableName := a.tableName,
                   schema := a.schema.orElse cfg.schema }) ∧
    (∀ a e, db.connect = .error e →
      (handleListTables cfg db a).2 =
        .failure { error := e, schema := a.schema.orElse cfg.schema,
                   pattern := if a.pattern.truthy then a.pattern else JsVal.null }) ∧
    (∀ a e, db.connect = .ok () →
      db.execList (listTablesSql a.pattern.truthy) (listParams cfg a) = .error e →
      (handleListTables cfg db a).2 =
        .failure { error := e, schema := a.schema.orElse cfg.schema,
                   pattern := if a.pattern.truthy then a.pattern else JsVal.null }) := by
  refine ⟨fun nm => rfl, fun a => ⟨_, rfl⟩, fun a => ⟨_, rfl⟩, fun a => ⟨_, rfl⟩,
    ?_, ?_, ?_, ?_, ?_, ?_⟩
  · intro a e hc
    simp [handleQuery, hc, effSchemaQ, effContext, effLimit]
  · intro a e hc he
    simp [handleQuery, hc, he]
  · intro a e hc
    simp [handleDescribeTable, hc]
  · intro a e hc he
    simp [handleDescribeTable, hc, he]
  · intro a e hc
    simp [handleListTables, hc]
  · intro a e hc he
    simp [handleListTables, hc, he]

/-- C4 witness: a connection-acquisition failure and a mid-statement
failure are both returned as failure envelopes carrying the driver error. -/
theorem error_propagation_policy_witness :
    (handleQuery defaultConfig dbConnectFail { query := "SELECT 1" }).2 =
      QueryResponse.failure { error := sampleError, query := "SELECT 1",
                              schema := "public", context := "" } ∧
    (handleListTables defaultConfig dbExecFail {}).2 =
      ListResponse.failure { error := sampleError, schema := "public",
                             pattern := JsVal.null } :=
  ⟨(error_propagation_policy defaultConfig dbConnectFail).2.2.2.2.1
      { query := "SELECT 1" } sampleError rfl,
   (error_propagation_policy defaultConfig dbExecFail).2.2.2.2.2.2.2.2.2
      {} sampleError rfl rfl⟩

theorem isPrefixOf_map (f : Char → Char) :
    ∀ (p l : List Char), p.isPrefixOf l = true → (p.map f).isPrefixOf (l.map f) = true
  | [], _, _ => by simp [List.isPrefixOf]
  | a :: as, [], h => by simp [List.isPrefixOf] at h
  | a :: as, b :: bs, h => by
    simp only [List.isPrefixOf, Bool.and_eq_true, beq_iff_eq] at h
    simp only [List.map, List.isPrefixOf, Bool.and_eq_true, beq_iff_eq]
    exact ⟨congrArg f h.1, isPrefixOf_map f as bs h.2⟩

theorem containsSub_map (f : Char → Char) :
    ∀ (hay needle : List Char), containsSub hay needle = true →
      containsSub (hay.map f) (needle.map f) = true
  | [], needle, h => by
    simp only [containsSub, List.isEmpty_iff] at h
    simp [h, containsSub]
  | c :: t, needle, h => by
    simp only [containsSub, Bool.or_eq_true] at h
    simp only [List.map, containsSub, Bool.or_eq_true]
    cases h with
    | inl hp => exact Or.inl (isPrefixOf_map f needle (c :: t) hp)
    | inr hr => exact Or.inr (containsSub_map f t needle hr)

theorem jsIncludes_toUpper (q w : String) (h : jsIncludes q w = true) :
    jsIncludes (jsToUpper q) (jsToUpper w) = true :=
  containsSub_map Char.toUpper q.data w.data h

/-- C5: the augmentation is the identity on every query that contains the
substring `"LIMIT"` in any letter case (any `w` with uppercase form
`"LIMIT"`), and on every query whose trimmed uppercased form does not start
with `"SELECT"`, regardless of the effective limit. -/
theorem augmentation_identity (q w : String) (L : Int) :
    (jsToUpper w = "LIMIT" → jsIncludes q w = true → augment q L = q) ∧
    (jsStartsWith (jsToUpper (jsTrim q)) "SELECT" = false → augment q L = q) := by
  constructor
  · intro hw hincl
    apply augment_of_cond_false
    have hB : jsIncludes (jsToUpper q) "LIMIT" = true :=
      hw ▸ jsIncludes_toUpper q w hincl
    simp [augmentCondition, hB]
  · intro hA
    apply augment_of_cond_false
    simp [augmentCondition, hA]

/-- C5 witness: a lowercase `limit` suppresses augmentation, and a
non-SELECT statement is never modified. -/
theorem augmentation_identity_witness :
    augment "select 1 limit 5" 10 = "select 1 limit 5" ∧
    augment "UPDATE t SET x = 1" 10 = "UPDATE t SET x = 1" :=
  ⟨(augmentation_identity "select 1 limit 5" "limit" 10).1 (by decide) (by decide),
   (augmentation_identity "UPDATE t SET x = 1" "w" 10).2 (by decide)⟩

/-- C6 code evaluation at the failing input: a `list_tables` call with no
pattern argument executes the pattern-free SQL with a single bound
parameter — so no filter is applied — yet the success envelope reports
`filtered = true`, because line 360 computes `pattern !== null` and an
absent pattern is `undefined`, which is not `null`. -/
theorem list_tables_filtered_bug :
    (handleListTables defaultConfig dbOk {}).2 =
      ListResponse.success { schema := "public", pattern := JsVal.null,
                             tables := [], tableCount := 0, found := false,
                             filtered := true } ∧
    execEvents (handleListTables defaultConfig dbOk {}).1 =
      [(listTablesSql false, ["public"])] :=
  ⟨rfl, rfl⟩

/-- C7: a `describe_table` invocation whose introspection query returns zero
rows yields a success envelope with an empty column list, `columnCount = 0`
and `found = false` — not a failure; and `found` is true iff at least one
column row was returned. -/
theorem describe_missing_table_success (cfg : Config) (db : Db)
    (args : DescribeArgs) (rows : List InfoColumnRow)
    (hc : db.connect = .ok ())
    (he : db.execDescribe describeTableQuery
      [args.schema.orElse cfg.schema, args.tableName] = .ok rows) :
    (rows = [] →
      (handleDescribeTable cfg db args).2 =
        .success { table := { name := args.tableName,
                              schema := args.schema.orElse cfg.schema,
                              fullName := args.schema.orElse cfg.schema ++ "."
                                ++ args.tableName },
                   columns := [], columnCount := 0, found := false }) ∧
    (∀ s, (handleDescribeTable cfg db args).2 = .success s →
      (s.found = true ↔ rows ≠ [])) := by
  constructor
  · intro hrows
    subst hrows
    simp [handleDescribeTable, hc, he, mapWithIndex]
  · intro s hs
    simp [handleDescribeTable, hc, he, DescribeResponse.success.injEq] at hs
    rw [← hs]
    show (!rows.isEmpty) = true ↔ rows ≠ []
    cases rows with
    | nil => simp
    | cons r rest => simp

/-- C7 witness: a table with no matching columns on a live connection. -/
theorem describe_missing_table_success_witness :
    (handleDescribeTable defaultConfig dbOk { tableName := "ghost" }).2 =
      DescribeResponse.success
        { table := { name := "ghost", schema := "public",
                     fullName := "public.ghost" },
          columns := [], columnCount := 0, found := false } :=
  (describe_missing_table_success defaultConfig dbOk { tableName := "ghost" }
    [] rfl rfl).1 rfl

theorem mapWithIndex_length (f : Nat → α → β) :
    ∀ (k : Nat) (l : List α), (mapWithIndex f k l).length = l.length
  | _, [] => rfl
  | k, _ :: rest => by
    simp [mapWithIndex, mapWithIndex_length f (k + 1) rest]

theorem mapWithIndex_get (f : Nat → α → β) :
    ∀ (k : Nat) (l : List α) (i : Nat) (hi : i < l.length)
      (hi2 : i < (mapWithIndex f k l).length),
      (mapWithIndex f k l).get ⟨i, hi2⟩ = f (k + i) (l.get ⟨i, hi⟩)
  | _, [], i, hi, _ => absurd hi (Nat.not_lt_zero i)
  | k, a :: rest, 0, _, _ => by simp [mapWithIndex]
  | k, a :: rest, i + 1, hi, hi2 => by
    have hi' : i < rest.length := Nat.lt_of_succ_lt_succ hi
    have hi2' : i < (mapWithIndex f (k + 1) rest).length := by
      rw [mapWithIndex_length]
      exact hi'
    show (mapWithIndex f (k + 1) rest).get ⟨i, hi2'⟩ =
      f (k + (i + 1)) ((a :: rest).get ⟨i + 1, hi⟩)
    rw [mapWithIndex_get f (k + 1) rest i hi' hi2']
    have harith : k + 1 + i = k + (i + 1) := by omega
    rw [harith]
    rfl

/-- Modelled from PostgreSQL's documented `information_schema.columns`
output for a table `users(id integer primary key, name varchar(50),
created_at timestamp)`: an `integer` column reports `numeric_precision = 32`
and `numeric_scale = 0` (binary precision of the 4-byte integer type), a
`varchar(50)` column reports `character_maximum_length = 50`, and a
`timestamp` column reports base type `timestamp without time zone` with null
character/numeric fields (its precision lives in `datetime_precision`, which
the introspection statement does not select). -/
def usersColumnRows : List InfoColumnRow :=
  [{ column_name := "id", data_type := "integer", is_nullable := "NO",
     column_default := .null, character_maximum_length := none,
     numeric_precision := some 32, numeric_scale := some 0 },
   { column_name := "name", data_type := "character varying",
     is_nullable := "YES", column_default := .null,
     character_maximum_length := some 50, numeric_precision := none,
     numeric_scale := none },
   { column_name := "created_at", data_type := "timestamp without time zone",
     is_nullable := "YES", column_default := .null,
     character_maximum_length := none, numeric_precision := none,
     numeric_scale := none }]

/-- An oracle whose describe statement returns the users-table rows. -/
def dbUsers : Db :=
  { connect := .ok ()
    execQuery := fun _ => .ok okResult
    execDescribe := fun _ _ => .ok usersColumnRows
    execList := fun _ _ => .ok [] }

/-- The full-type strings of a describe response, in ordinal order. -/
def DescribeResponse.fullTypes : DescribeResponse → List String
  | .success s => s.columns.map (fun c => c.fullType)
  | .failure _ => []

/-- The envelope the handler actually builds for the users scenario. -/
def usersDescribePayload : DescribeSuccess :=
  { table := { name := "users", schema := "public", fullName := "public.users" }
    columns :=
      [{ position := 1, name := "id", dataType := "integer", nullable := false,
         defaultValue := .null, characterMaximumLength := none,
         numericPrecision := some 32, numericScale := some 0,
         fullType := "integer(32)" },
       { position := 2, name := "name", dataType := "character varying",
         nullable := true, defaultValue := .null,
         characterMaximumLength := some 50, numericPrecision := none,
         numericScale := none, fullType := "character varying(50)" },
       { position := 3, name := "created_at",
         dataType := "timestamp without time zone", nullable := true,
         defaultValue := .null, characterMaximumLength := none,
         numericPrecision := none, numericScale := none,
         fullType := "timestamp without time zone" }]
    columnCount := 3
    found := true }

/-- C8 counterexample: in the users scenario the first full-type string the
code produces is `"integer(32)"`, not `"integer"` — `information_schema`
reports `numeric_precision = 32` for an integer column and the truthiness
test of line 273 then appends the precision suffix (the zero scale is
suppressed, being falsy). -/
theorem describe_users_fulltype_counterexample :
    DescribeResponse.fullTypes
        (handleDescribeTable defaultConfig dbUsers
          { tableName := "users", schema := .str "public" }).2 =
      ["integer(32)", "character varying(50)", "timestamp without time zone"] ∧
    DescribeResponse.fullTypes
        (handleDescribeTable defaultConfig dbUsers
          { tableName := "users", schema := .str "public" }).2 ≠
      ["integer", "character varying(50)", "timestamp without time zone"] :=
  ⟨rfl, by decide⟩

/-- C8 amended: each introspection row maps to a ColumnDescriptor whose
position is its 1-based output index, whose nullable flag is true exactly
when `is_nullable = "YES"`, and whose fullType is the base data type plus an
optional length suffix or (precision[,scale]) suffix; in the users scenario
the three full-type strings are `"integer(32)"`, `"character varying(50)"`
and `"timestamp without time zone"` in ordinal order, nullability is
false/true/true, and `columnCount = 3`. -/
theorem describe_column_mapping (cfg : Config) (db : Db) (args : DescribeArgs)
    (rows : List InfoColumnRow) (s : DescribeSuccess)
    (hc : db.connect = .ok ())
    (he : db.execDescribe describeTableQuery
      [args.schema.orElse cfg.schema, args.tableName] = .ok rows)
    (hs : (handleDescribeTable cfg db args).2 = .success s) :
    (∀ i, ∀ hi : i < rows.length, ∀ hi2 : i < s.columns.length,
      s.columns.get ⟨i, hi2⟩ =
        { position := i + 1
          name := (rows.get ⟨i, hi⟩).column_name
          dataType := (rows.get ⟨i, hi⟩).data_type
          nullable := (rows.get ⟨i, hi⟩).is_nullable == "YES"
          defaultValue := (rows.get ⟨i, hi⟩).column_default
          characterMaximumLength := (rows.get ⟨i, hi⟩).character_maximum_length
          numericPrecision := (rows.get ⟨i, hi⟩).numeric_precision
          numericScale := (rows.get ⟨i, hi⟩).numeric_scale
          fullType := fullTypeOf (rows.get ⟨i, hi⟩) }) ∧
    s.columnCount = rows.length ∧
    (handleDescribeTable defaultConfig dbUsers
        { tableName := "users", schema := .str "public" }).2 =
      .success usersDescribePayload := by
  have hcols : s.columns = mapWithIndex columnDescriptorOf 0 rows := by
    simp [handleDescribeTable, hc, he, DescribeResponse.success.injEq] at hs
    rw [← hs]
  have hcount : s.columnCount = rows.length := by
    simp [handleDescribeTable, hc, he, DescribeResponse.success.injEq] at hs
    rw [← hs]
  refine ⟨?_, hcount, rfl⟩
  intro i hi
  rw [hcols]
  intro hi2
  rw [mapWithIndex_get columnDescriptorOf 0 rows i hi hi2]
  simp [columnDescriptorOf, Nat.zero_add]

/-- C8 amended witness: the users scenario, with hypotheses discharged on
the concrete oracle. -/
theorem describe_column_mapping_witness :
    (handleDescribeTable defaultConfig dbUsers
        { tableName := "users", schema := .str "public" }).2 =
      DescribeResponse.success usersDescribePayload :=
  (describe_column_mapping defaultConfig dbUsers
    { tableName := "users", schema := .str "public" } usersColumnRows
    usersDescribePayload rfl rfl rfl).2.2

/-- C9 counterexample: two `list_tables` requests that both supply a pattern
argument — the empty string and `"%"` — execute different SQL texts, because
line 334 tests the pattern's truthiness, so a supplied empty pattern behaves
as if absent.  Hence the SQL text does not depend only on whether a pattern
was supplied. -/
theorem list_sql_pattern_counterexample :
    execEvents (handleListTables defaultConfig dbOk
        { pattern := JsVal.str "" }).1 = [(listTablesSql false, ["public"])] ∧
    execEvents (handleListTables defaultConfig dbOk
        { pattern := JsVal.str "%" }).1 =
      [(listTablesSql true, ["public", "%"])] ∧
    listTablesSql false ≠ listTablesSql true :=
  ⟨rfl, rfl, by decide⟩

/-- C9 amended: the schema, table-name and pattern arguments reach the
executed statement only as bound parameter values: `describe_table` always
executes the single constant SQL text with `[schema, tableName]` bound, and
`list_tables` executes one of two constant texts, chosen only by whether a
truthy (non-empty string) pattern was supplied — never by any other argument
content. -/
theorem introspection_parameterization (cfg : Config) (db : Db)
    (da : DescribeArgs) (la la2 : ListArgs) :
    (∀ s p, Event.exec s p ∈ (handleDescribeTable cfg db da).1 →
      s = describeTableQuery ∧ p = [da.schema.orElse cfg.schema, da.tableName]) ∧
    (∀ s p, Event.exec s p ∈ (handleListTables cfg db la).1 →
      s = listTablesSql la.pattern.truthy ∧ p = listParams cfg la) ∧
    (la.pattern.truthy = la2.pattern.truthy →
      ∀ s p s2 p2, Event.exec s p ∈ (handleListTables cfg db la).1 →
        Event.exec s2 p2 ∈ (handleListTables cfg db la2).1 → s = s2) := by
  have hd := handleDescribeTable_trace_eq cfg db da
  have hl := handleListTables_trace_eq cfg db la
  have hl2 := handleListTables_trace_eq cfg db la2
  cases hc : db.connect with
  | error e =>
    rw [hc] at hd hl hl2
    refine ⟨?_, ?_, ?_⟩
    · intro s p hmem
      rw [hd] at hmem
      simp at hmem
    · intro s p hmem
      rw [hl] at hmem
      simp at hmem
    · intro _ s p s2 p2 hmem _
      rw [hl] at hmem
      simp at hmem
  | ok u =>
    rw [hc] at hd hl hl2
    refine ⟨?_, ?_, ?_⟩
    · intro s p hmem
      rw [hd] at hmem
      simp only [List.mem_cons, List.not_mem_nil, or_false] at hmem
      rcases hmem with h | h | h
      · exact absurd h (by simp)
      · exact ⟨(Event.exec.injEq .. ).mp h |>.1, (Event.exec.injEq .. ).mp h |>.2⟩
      · exact absurd h (by simp)
    · intro s p hmem
      rw [hl] at hmem
      simp only [List.mem_cons, List.not_mem_nil, or_false] at hmem
      rcases hmem with h | h | h
      · exact absurd h (by simp)
      · exact ⟨(Event.exec.injEq .. ).mp h |>.1, (Event.exec.injEq .. ).mp h |>.2⟩
      · exact absurd h (by simp)
    · intro htr s p s2 p2 hmem hmem2
      rw [hl] at hmem
      rw [hl2] at hmem2
      simp only [List.mem_cons, List.not_mem_nil, or_false] at hmem hmem2
      rcases hmem with h | h | h
      · exact absurd h (by simp)
      · rcases hmem2 with h2 | h2 | h2
        · exact absurd h2 (by simp)
        · have e1 := ((Event.exec.injEq .. ).mp h).1
          have e2 := ((Event.exec.injEq .. ).mp h2).1
          rw [e1, e2, htr]
        · exact absurd h2 (by simp)
      · exact absurd h (by simp)

/-- C9 amended witness: the describe statement executed on a live oracle is
the constant text with the resolved schema and table name bound. -/
theorem introspection_parameterization_witness :
    describeTableQuery = describeTableQuery ∧
    (["public", "t"] : List String) = ["public", "t"] :=
  (introspection_parameterization defaultConfig dbOk { tableName := "t" }
    {} {}).1 describeTableQuery ["public", "t"]
    (List.mem_cons_of_mem _ (List.mem_cons_self _ _))

/-- C10: the schema and context arguments of the query tool never affect the
executed SQL text: two requests that differ only in schema and/or context
produce identical statement traces (each executed text being the augmented
query with no bound parameters), and their success envelopes agree on every
field except the echoed schema and context. -/
theorem query_context_noninterference (cfg : Config) (db : Db)
    (a1 a2 : QueryArgs) (hq : a1.query = a2.query)
    (hm : a1.maxRows = a2.maxRows) :
    execEvents (handleQuery cfg db a1).1 = execEvents (handleQuery cfg db a2).1 ∧
    (∀ s p, Event.exec s p ∈ (handleQuery cfg db a1).1 →
      s = augment a1.query (effLimit cfg a1) ∧ p = []) ∧
    (∀ s1 s2, (handleQuery cfg db a1).2 = .success s1 →
      (handleQuery cfg db a2).2 = .success s2 →
      s1.query = s2.query ∧ s1.command = s2.command ∧ s1.rowCount = s2.rowCount ∧
      s1.fields = s2.fields ∧ s1.data = s2.data ∧ s1.hasData = s2.hasData ∧
      s1.dataCount = s2.dataCount ∧ s1.wasLimited = s2.wasLimited ∧
      s1.limitApplied = s2.limitApplied ∧
      s1.schema = effSchemaQ cfg a1 ∧ s1.context = effContext cfg a1) := by
  have hL : effLimit cfg a1 = effLimit cfg a2 := by
    simp [effLimit, hm]
  have hfq : augment a1.query (effLimit cfg a1) =
      augment a2.query (effLimit cfg a2) := by
    rw [hq, hL]
  have h1 := handleQuery_trace_eq cfg db a1
  have h2 := handleQuery_trace_eq cfg db a2
  refine ⟨?_, ?_, ?_⟩
  · rw [h1, h2]
    cases hc : db.connect with
    | error e => rfl
    | ok u => simp [execEvents, hfq]
  · intro s p hmem
    rw [h1] at hmem
    cases hc : db.connect with
    | error e =>
      rw [hc] at hmem
      simp at hmem
    | ok u =>
      rw [hc] at hmem
      simp only [List.mem_cons, List.not_mem_nil, or_false] at hmem
      rcases hmem with h | h | h
      · exact absurd h (by simp)
      · exact ⟨(Event.exec.injEq .. ).mp h |>.1, (Event.exec.injEq .. ).mp h |>.2⟩
      · exact absurd h (by simp)
  · intro s1 s2 hs1 hs2
    cases hc : db.connect with
    | error e => simp [handleQuery, hc] at hs1
    | ok u =>
      cases he : db.execQuery (augment a1.query (effLimit cfg a1)) with
      | error e => simp [handleQuery, hc, he] at hs1
      | ok result =>
        have he2 : db.execQuery (augment a2.query (effLimit cfg a2)) =
            .ok result := by
          rw [← hfq]
          exact he
        simp [handleQuery, hc, he, QueryResponse.success.injEq] at hs1
        simp [handleQuery, hc, he2, QueryResponse.success.injEq] at hs2
        rw [← hs1, ← hs2]
        refine ⟨hfq, rfl, rfl, rfl, rfl, rfl, rfl, ?_, hL, rfl, rfl⟩
        show (!(a1.query == augment a1.query (effLimit cfg a1))) =
          (!(a2.query == augment a2.query (effLimit cfg a2)))
        rw [hfq, hq]

/-- C10 witness: changing only schema and context leaves the statement trace
unchanged. -/
theorem query_context_noninterference_witness :
    execEvents (handleQuery defaultConfig dbOk { query := "SELECT 1" }).1 =
      execEvents (handleQuery defaultConfig dbOk
        { query := "SELECT 1", schema := JsVal.str "other",
          context := JsVal.str "note" }).1 :=
  (query_context_noninterference defaultConfig dbOk { query := "SELECT 1" }
    { query := "SELECT 1", schema := JsVal.str "other",
      context := JsVal.str "note" } rfl rfl).1

end PgMcp
